import Mathlib

/-!
# Menstrual-cycle API: predictions, statistics and write path

A shallow embedding of the four request handlers of `server-minimal.js`
(`GET /api/predictions`, `GET /api/cycles`, `GET /api/stats`, `POST /api/cycles`).

Modelling conventions.

* A JavaScript `Date` value is its epoch value in milliseconds, an `Int`; a stored start
  date is a valid `Date`. A `moment` that the handlers derive is an `Option Int`: `none` is
  the invalid moment that results when day arithmetic leaves the range of `Date`
  (8.64e15 milliseconds either side of the epoch).
  The server's zone is taken to be UTC, so a calendar day is a block of `msPerDay`
  milliseconds, day arithmetic adds whole blocks, and no offset correction enters `diff`.
* JavaScript numbers that result from averaging are exact rationals (`ℚ`); binary
  floating-point rounding is not modelled.
* The record store is a list of documents together with an optional fault: when the
  fault is present every query or save rejects with that message.
-/

namespace MenstrualCycleApi

/-! ## Date arithmetic used by the handlers (moment.js, UTC) -/

/-- Milliseconds in a day, the `864e5` divisor of moment's `diff(..., "days")`. -/
def msPerDay : Int := 86400000

/-- The call `moment(a).diff(moment(b), "days")`: the millisecond difference `a - b` divided
by `864e5` and truncated toward zero (moment's `absFloor`). -/
def diffDays (a b : Int) : Int := Int.tdiv (a - b) msPerDay

/-- JavaScript `Math.round`: the nearest integer, halves going up. -/
def mathRound (x : ℚ) : Int := ⌊x + 1 / 2⌋

/-- The helper `absRound` of moment: `Math.round` applied to the magnitude, the sign restored. -/
def absRound (x : ℚ) : Int := if x < 0 then -(mathRound (-x)) else mathRound x

/-- The largest time value of a JavaScript `Date`, 8.64e15 milliseconds. -/
def maxTime : Int := 8640000000000000

/-- The abstract operation `TimeClip` of JavaScript: a time value outside the range of
`Date` becomes `NaN`, here `none`. -/
def timeClip (t : Int) : Option Int :=
  if -maxTime ≤ t ∧ t ≤ maxTime then some t else none

/-- The call `moment(date)` on a `Date` with time value `t`: invalid when `t` is no time
value of a `Date`. -/
def moment (t : Int) : Option Int := timeClip t

/-- The call `moment(m).add(n, "days")`: an invalid moment stays as it is; otherwise the
day count of the duration is passed through `absRound`, that many calendar days are
added, and the moment is invalid when the result leaves the range of `Date`. -/
def addDays (m : Option Int) (n : ℚ) : Option Int :=
  m.bind (fun t => timeClip (t + absRound n * msPerDay))

/-- The call `moment(m).subtract(n, "days")`. -/
def subtractDays (m : Option Int) (n : ℚ) : Option Int :=
  m.bind (fun t => timeClip (t - absRound n * msPerDay))

/-- A calendar date of the proleptic Gregorian calendar, the three fields that the
format `"YYYY-MM-DD"` prints. -/
structure CivilDate where
  year : Int
  month : Int
  day : Int
deriving DecidableEq, Repr

/-- Year of the era and day of that year for a day `doe` of a 400-year era of 146097 days
that starts on a 1 March: the era splits into centuries of 36524 days, four-year blocks of
1461 days and years of 365 days, the leap day closing its block. -/
def yearOfEra (doe : Int) : Int × Int :=
  let cent := if doe / 36524 < 3 then doe / 36524 else 3
  let r := doe - cent * 36524
  let quad := if r / 1461 < 24 then r / 1461 else 24
  let s := r - quad * 1461
  let yr := if s / 365 < 3 then s / 365 else 3
  (cent * 100 + quad * 4 + yr, s - yr * 365)

/-- The calendar date of the day numbered `z`, day `0` being 1970-01-01. -/
def civilFromDays (z : Int) : CivilDate :=
  let era := (z + 719468) / 146097
  let doe := z + 719468 - era * 146097
  let yoe := (yearOfEra doe).1
  let doy := (yearOfEra doe).2
  let mp := (5 * doy + 2) / 153
  let d := doy - (153 * mp + 2) / 5 + 1
  let m := if mp < 10 then mp + 3 else mp - 9
  ⟨yoe + era * 400 + (if m ≤ 2 then 1 else 0), m, d⟩

/-- The day number of a calendar date, day `0` being 1970-01-01. -/
def daysFromCivil (c : CivilDate) : Int :=
  let y := c.year - (if c.month ≤ 2 then 1 else 0)
  let era := y / 400
  let yoe := y - era * 400
  let mp := if c.month > 2 then c.month - 3 else c.month + 9
  let doy := (153 * mp + 2) / 5 + c.day - 1
  let doe := yoe * 365 + yoe / 4 - yoe / 100 + doy
  era * 146097 + doe - 719468

/-- The day number on which the instant `m` falls. -/
def dayOf (m : Int) : Int := m / msPerDay

/-- What `format("YYYY-MM-DD")` prints: the three fields of a calendar date, or the
text `Invalid date`. -/
inductive DateText
  | date (d : CivilDate)
  | invalidDate
deriving DecidableEq, Repr

/-- The call `m.format("YYYY-MM-DD")`: the calendar date on which a valid moment falls,
`Invalid date` for an invalid moment. -/
def formatYMD (m : Option Int) : DateText :=
  match m with
  | some t => .date (civilFromDays (dayOf t))
  | none => .invalidDate

/-- The helper `zeroFill` of moment without a forced sign: the decimal digits of the
magnitude, left-padded with zeros to `targetLength`, after a minus sign when negative. -/
def zeroFill (number : Int) (targetLength : Nat) : String :=
  let absNumber := toString number.natAbs
  (if number < 0 then "-" else "")
    ++ String.mk (List.replicate (targetLength - absNumber.length) '0') ++ absNumber

/-- The text that `"YYYY-MM-DD"` prints for a calendar date. -/
def CivilDate.text (c : CivilDate) : String :=
  zeroFill c.year 4 ++ "-" ++ zeroFill c.month 2 ++ "-" ++ zeroFill c.day 2

/-- The text of a formatted moment. -/
def DateText.text : DateText → String
  | .date d => d.text
  | .invalidDate => "Invalid date"

/-- The epoch value of midnight UTC at the start of a calendar date. -/
def utc (year month day : Int) : Int := daysFromCivil ⟨year, month, day⟩ * msPerDay

/-! ## Data model -/

/-- The values of the schema's `flow` enumeration. -/
inductive Flow
  | Ligero
  | Moderado
  | Fuerte
deriving DecidableEq, Repr

/-- A document of the `Cycle` collection (`cycleSchema`). `startDate` is the epoch value
of the stored `Date`; the optional fields are absent when `none`. The identifier and the
bookkeeping timestamps that the store adds are read by no handler and are left out. -/
structure CycleRecord where
  startDate : Int
  duration : ℚ
  symptoms : Option String := none
  mood : Option String := none
  flow : Option Flow := none
  ovulationDate : Option Int := none
  fertileWindowStart : Option Int := none
  fertileWindowEnd : Option Int := none
  nextPeriodPrediction : Option Int := none
deriving DecidableEq

/-- The record store: the documents of the collection and, when the store is out of
order, the message of the error with which every query and save rejects. -/
structure Store where
  docs : List CycleRecord
  fault : Option String := none

/-- The query modifier `.sort({ startDate: 1 })`: ascending by start date. -/
def sortAscending (docs : List CycleRecord) : List CycleRecord :=
  docs.insertionSort (fun a b => a.startDate ≤ b.startDate)

/-- The query modifier `.sort({ startDate: -1 })`: descending by start date. -/
def sortDescending (docs : List CycleRecord) : List CycleRecord :=
  docs.insertionSort (fun a b => b.startDate ≤ a.startDate)

/-- The awaited query `Cycle.find()` followed by the modifiers `shape`: it rejects with the
store's fault or resolves to the shaped documents. -/
def Store.find (store : Store) (shape : List CycleRecord → List CycleRecord) :
    Except String (List CycleRecord) :=
  match store.fault with
  | some message => .error message
  | none => .ok (shape store.docs)

/-! ## Responses -/

/-- The `fertileWindow` object of a prediction. -/
structure FertileWindow where
  start : DateText
  end_ : DateText
deriving DecidableEq

/-- The `predictions` object of a successful prediction response; every field is what
`format("YYYY-MM-DD")` prints. -/
structure Predictions where
  nextPeriod : DateText
  ovulationDate : DateText
  fertileWindow : FertileWindow
  PMSStart : DateText
deriving DecidableEq

/-- The `averages` object of a successful prediction response. -/
structure Averages where
  duration : ℚ
  cycleLength : ℚ
deriving DecidableEq

/-- The JSON bodies the handlers send; `none` in a statistics body is JSON `null`. -/
inductive Body
  | insufficient (status message : String)
  | predicted (status : String) (predictions : Predictions) (averages : Averages)
  | cycles (docs : List CycleRecord)
  | stats (averageDuration averageCycleLength : Option ℚ)
  | saved (success : Bool) (message : String) (data : CycleRecord)
  | failure (error details : String)
deriving DecidableEq

/-- An HTTP response: status code (200 unless `res.status` was called) and JSON body. -/
structure Response where
  status : Nat
  body : Body
deriving DecidableEq

/-! ## GET /api/predictions -/

/-- The array `cycleLengths` of the predictions handler: for `i = 1 .. length - 1` the
value `moment(cycles[i].startDate).diff(moment(cycles[i - 1].startDate), "days")`. -/
def predictionCycleLengths : List CycleRecord → List Int
  | [] => []
  | [_] => []
  | previous :: current :: rest =>
    diffDays current.startDate previous.startDate :: predictionCycleLengths (current :: rest)

/-- The value `avgDuration` of the predictions handler. -/
def avgDuration (cycles : List CycleRecord) : ℚ :=
  (cycles.map (fun c => c.duration)).sum / cycles.length

/-- The value `avgCycleLength` of the predictions handler. -/
def avgCycleLength (cycles : List CycleRecord) : ℚ :=
  (((predictionCycleLengths cycles).sum : Int) : ℚ) / (predictionCycleLengths cycles).length

/-- The moment `nextPeriod` of the predictions handler: `moment(cycles[0].startDate)` plus
`avgCycleLength` days. For an empty list (never reached behind the guard) the start is
taken as `0`. -/
def nextPeriod (cycles : List CycleRecord) : Option Int :=
  addDays (moment ((cycles.head?.map (fun c => c.startDate)).getD 0)) (avgCycleLength cycles)

/-- The body of the `try` block of the predictions handler, applied to the fetched
documents `cycles`. -/
def predictionsResponse (cycles : List CycleRecord) : Response :=
  if cycles.length < 3 then
    ⟨200, .insufficient "insufficient_data" "Se necesitan al menos 3 ciclos para predicciones"⟩
  else
    let nextPeriod := nextPeriod cycles
    let ovulationDate := subtractDays nextPeriod 14
    let fertileWindowStart := subtractDays ovulationDate 3
    let fertileWindowEnd := addDays ovulationDate 2
    ⟨200, .predicted "success"
      { nextPeriod := formatYMD nextPeriod
        ovulationDate := formatYMD ovulationDate
        fertileWindow := ⟨formatYMD fertileWindowStart, formatYMD fertileWindowEnd⟩
        PMSStart := formatYMD (subtractDays nextPeriod 5) }
      ⟨avgDuration cycles, avgCycleLength cycles⟩⟩

/-- The handler of `GET /api/predictions`: the six most recent documents are fetched,
a rejected query is answered from the `catch` block. -/
def getPredictions (store : Store) : Response :=
  match store.find (fun docs => (sortDescending docs).take 6) with
  | .ok cycles => predictionsResponse cycles
  | .error message => ⟨500, .failure "Error en predicciones" message⟩

/-! ## GET /api/cycles -/

/-- The handler of `GET /api/cycles`. -/
def getCycles (store : Store) : Response :=
  match store.find sortDescending with
  | .ok cycles => ⟨200, .cycles cycles⟩
  | .error message => ⟨500, .failure "Error al obtener ciclos" message⟩

/-! ## GET /api/stats -/

/-- The array `cycleLengths` of the statistics handler: for `i = 1 .. length - 1` the
value `Math.abs(moment(startDates[i]).diff(moment(startDates[i - 1]), "days"))`. -/
def statsCycleLengths : List Int → List Int
  | [] => []
  | [_] => []
  | previous :: current :: rest =>
    |diffDays current previous| :: statsCycleLengths (current :: rest)

/-- The local function `avg` of the statistics handler: `null` for an empty array,
else the sum divided by the length. -/
def avg (arr : List ℚ) : Option ℚ :=
  if arr.length = 0 then none else some (arr.sum / arr.length)

/-- The body of the `try` block of the statistics handler, applied to the fetched
documents `cycles`. -/
def statsResponse (cycles : List CycleRecord) : Response :=
  if cycles.length = 0 then
    ⟨200, .stats none none⟩
  else
    let durations := cycles.map (fun c => c.duration)
    let startDates := cycles.map (fun c => c.startDate)
    let cycleLengths := statsCycleLengths startDates
    ⟨200, .stats (avg durations) (avg (cycleLengths.map (fun (d : Int) => (d : ℚ))))⟩

/-- The handler of `GET /api/stats`. -/
def getStats (store : Store) : Response :=
  match store.find sortAscending with
  | .ok cycles => statsResponse cycles
  | .error message => ⟨500, .failure "Error al calcular estadísticas" message⟩

/-! ## POST /api/cycles -/

/-- A JSON value of a request body; arrays and objects are not told apart, both being
truthy. -/
inductive JsValue
  | null
  | bool (b : Bool)
  | number (x : ℚ)
  | string (s : String)
  | object
deriving DecidableEq

/-- JavaScript truthiness of a JSON value. -/
def JsValue.truthy : JsValue → Bool
  | .null => false
  | .bool b => b
  | .number x => x ≠ 0
  | .string s => s ≠ ""
  | .object => true

/-- The three properties the handler destructures from `req.body`; `none` is a property
the body lacks (`undefined`). -/
structure RequestBody where
  startDate : Option JsValue
  duration : Option JsValue
  symptoms : Option JsValue

/-- The operator `!` on a destructured property: `undefined` is falsy. -/
def falsy : Option JsValue → Bool
  | none => true
  | some v => !v.truthy

/-- The awaited call `newCycle.save()`: the schema's casting and validation `validate`
(performed by mongoose, taken as a parameter) runs first, then the document is inserted;
either step rejects with its message and leaves the store as it was. -/
def Store.save (validate : Option JsValue → Option JsValue → Option JsValue →
      Except String CycleRecord)
    (store : Store) (body : RequestBody) : Except String (CycleRecord × Store) :=
  match validate body.startDate body.duration body.symptoms with
  | .error message => .error message
  | .ok doc =>
    match store.fault with
    | some message => .error message
    | none => .ok (doc, { store with docs := store.docs ++ [doc] })

/-- The handler of `POST /api/cycles`: the response and the store after the request. -/
def postCycles (validate : Option JsValue → Option JsValue → Option JsValue →
      Except String CycleRecord)
    (store : Store) (body : RequestBody) : Response × Store :=
  if falsy body.startDate || falsy body.duration then
    (⟨400, .failure "Datos incompletos" "Fecha de inicio y duración son obligatorios"⟩, store)
  else
    match store.save validate body with
    | .ok (savedCycle, store') =>
      (⟨200, .saved true "Ciclo registrado exitosamente" savedCycle⟩, store')
    | .error message => (⟨400, .failure "Error al guardar ciclo" message⟩, store)

/-! ## Reference definitions, following the specification -/

/-- Specification of the cycle lengths of the predictions: for every adjacent pair of the
newest-first input, the start date of the more recent record minus the start date of the
less recent one, in days. -/
def specPredictionCycleLengths : List CycleRecord → List Int
  | [] => []
  | [_] => []
  | moreRecent :: lessRecent :: rest =>
    diffDays moreRecent.startDate lessRecent.startDate
      :: specPredictionCycleLengths (lessRecent :: rest)

/-- Specification of `averageDuration`: the mean of the durations of all records. -/
def specAverageDuration (records : List CycleRecord) : ℚ :=
  (records.map (fun r => r.duration)).sum / records.length

/-- Specification of the cycle lengths of the statistics: with the start dates sorted
ascending, the absolute day difference of every two consecutive dates. -/
def specCycleLengths (records : List CycleRecord) : List Int :=
  let dates := (records.map (fun r => r.startDate)).insertionSort (fun a b => a ≤ b)
  List.zipWith (fun later earlier => |diffDays later earlier|) dates.tail dates

/-- Specification of `averageCycleLength`: the mean of `specCycleLengths`. -/
def specAverageCycleLength (records : List CycleRecord) : ℚ :=
  (((specCycleLengths records).sum : Int) : ℚ) / (specCycleLengths records).length

/-! ## Sample data -/

/-- Three records ten days apart, newest first, the oldest starting at the least time
value of a `Date` (20 April of the year -271821). -/
def earliestRecords : List CycleRecord :=
  [ { startDate := -maxTime + 20 * msPerDay, duration := 5 },
    { startDate := -maxTime + 10 * msPerDay, duration := 5 },
    { startDate := -maxTime, duration := 5 } ]

/-- The three records of the specification's scenario, newest first. -/
def scenario : List CycleRecord :=
  [ { startDate := utc 2024 2 26, duration := 4 },
    { startDate := utc 2024 1 29, duration := 5 },
    { startDate := utc 2024 1 1, duration := 5 } ]

/-- The newest record of the scenario. -/
def scenarioNewest : CycleRecord := { startDate := utc 2024 2 26, duration := 4 }

/-- The oldest record of the scenario. -/
def scenarioOldest : CycleRecord := { startDate := utc 2024 1 1, duration := 5 }

/-- A stand-in for the schema validation that accepts every body as one fixed record. -/
def acceptAll (_ _ _ : Option JsValue) : Except String CycleRecord :=
  .ok { startDate := utc 2024 3 25, duration := 5 }

theorem civilFromDays_epoch : civilFromDays 0 = ⟨1970, 1, 1⟩ := by decide

theorem civilFromDays_leapDay : civilFromDays 19782 = ⟨2024, 2, 29⟩ := by decide

theorem civilFromDays_centuryEnd : civilFromDays (-25509) = ⟨1900, 2, 28⟩ ∧
    civilFromDays (-25508) = ⟨1900, 3, 1⟩ ∧ civilFromDays 11016 = ⟨2000, 2, 29⟩ := by decide

theorem text_leapDay : (formatYMD (moment (utc 2024 2 29 + 1))).text = "2024-02-29" := by
  decide

theorem yearOfEra_eq (doe : Int) :
    ∃ cent quad yr : Int,
      yearOfEra doe
        = (cent * 100 + quad * 4 + yr, doe - cent * 36524 - quad * 1461 - yr * 365) ∧
      cent = (if doe / 36524 < 3 then doe / 36524 else 3) ∧
      quad = (if (doe - cent * 36524) / 1461 < 24 then (doe - cent * 36524) / 1461 else 24) ∧
      yr = (if (doe - cent * 36524 - quad * 1461) / 365 < 3
              then (doe - cent * 36524 - quad * 1461) / 365 else 3) :=
  ⟨_, _, _, rfl, rfl, rfl, rfl⟩

theorem era_parts (cent quad yr : Int) (hq0 : 0 ≤ quad) (hq : quad ≤ 24)
    (hy0 : 0 ≤ yr) (hy : yr ≤ 3) :
    (cent * 100 + quad * 4 + yr) / 4 = cent * 25 + quad ∧
    (cent * 100 + quad * 4 + yr) / 100 = cent := by
  constructor <;> omega

theorem yearOfEra_spec (doe : Int) (h0 : 0 ≤ doe) (h1 : doe ≤ 146096) :
    0 ≤ (yearOfEra doe).1 ∧ (yearOfEra doe).1 ≤ 399 ∧
    0 ≤ (yearOfEra doe).2 ∧ (yearOfEra doe).2 ≤ 365 ∧
    (yearOfEra doe).1 * 365 + (yearOfEra doe).1 / 4 - (yearOfEra doe).1 / 100
      + (yearOfEra doe).2 = doe := by
  obtain ⟨cent, quad, yr, hE, hc, hq, hy⟩ := yearOfEra_eq doe
  rw [hE]
  have bc : 0 ≤ cent ∧ cent ≤ 3 ∧ 0 ≤ doe - cent * 36524 ∧ doe - cent * 36524 ≤ 36524 ∧
      (cent < 3 → doe - cent * 36524 ≤ 36523) := by
    split_ifs at hc <;> omega
  clear hc
  obtain ⟨c0, c3, r0, r1, r2⟩ := bc
  generalize hr : doe - cent * 36524 = r at *
  have bq : 0 ≤ quad ∧ quad ≤ 24 ∧ 0 ≤ r - quad * 1461 ∧ r - quad * 1461 ≤ 1460 ∧
      (quad = 24 → cent < 3 → r - quad * 1461 ≤ 1459) := by
    split_ifs at hq <;> omega
  clear hq
  obtain ⟨q0, q24, s0, s1, s2⟩ := bq
  generalize hs : r - quad * 1461 = s at *
  have byr : 0 ≤ yr ∧ yr ≤ 3 ∧ 0 ≤ s - yr * 365 ∧ s - yr * 365 ≤ 365 := by
    split_ifs at hy <;> omega
  clear hy
  obtain ⟨y0, y3, d0, d1⟩ := byr
  obtain ⟨e4, e100⟩ := era_parts cent quad yr q0 q24 y0 y3
  simp only [e4, e100]
  omega

theorem daysFromCivil_parts (era yoe doy : Int) (hy0 : 0 ≤ yoe) (hy : yoe ≤ 399)
    (hd0 : 0 ≤ doy) (hd : doy ≤ 365) :
    daysFromCivil
      ⟨yoe + era * 400 +
          (if (if (5 * doy + 2) / 153 < 10 then (5 * doy + 2) / 153 + 3
                else (5 * doy + 2) / 153 - 9) ≤ 2 then 1 else 0),
        if (5 * doy + 2) / 153 < 10 then (5 * doy + 2) / 153 + 3 else (5 * doy + 2) / 153 - 9,
        doy - (153 * ((5 * doy + 2) / 153) + 2) / 5 + 1⟩
      = era * 146097 + (yoe * 365 + yoe / 4 - yoe / 100 + doy) - 719468 := by
  have hmp0 : 0 ≤ (5 * doy + 2) / 153 := by omega
  have hmp : (5 * doy + 2) / 153 ≤ 11 := by omega
  generalize (5 * doy + 2) / 153 = mp at hmp0 hmp
  simp only [daysFromCivil]
  split_ifs <;> omega

/-- Converting a day number to a calendar date and back gives the day number again. -/
theorem daysFromCivil_civilFromDays (z : Int) : daysFromCivil (civilFromDays z) = z := by
  have h0 : 0 ≤ z + 719468 - (z + 719468) / 146097 * 146097 := by omega
  have h1 : z + 719468 - (z + 719468) / 146097 * 146097 ≤ 146096 := by omega
  obtain ⟨a, b, c, d, e⟩ := yearOfEra_spec _ h0 h1
  exact (daysFromCivil_parts ((z + 719468) / 146097) _ _ a b c d).trans (by omega)


/-- The calendar conversion yields a month from 1 to 12 and a day from 1 to 31. -/
theorem civilFromDays_valid (z : Int) :
    1 ≤ (civilFromDays z).month ∧ (civilFromDays z).month ≤ 12 ∧
    1 ≤ (civilFromDays z).day ∧ (civilFromDays z).day ≤ 31 := by
  have h0 : 0 ≤ z + 719468 - (z + 719468) / 146097 * 146097 := by omega
  have h1 : z + 719468 - (z + 719468) / 146097 * 146097 ≤ 146096 := by omega
  obtain ⟨_, _, c, d, _⟩ := yearOfEra_spec _ h0 h1
  simp only [civilFromDays]
  generalize (yearOfEra (z + 719468 - (z + 719468) / 146097 * 146097)).2 = doy at c d
  split_ifs <;> omega

/-! ## Day arithmetic on calendar dates -/

theorem dayOf_add_days (m k : Int) : dayOf (m + k * msPerDay) = dayOf m + k := by
  unfold dayOf
  exact Int.add_mul_ediv_right m k (by decide)

theorem dayOf_sub_days (m k : Int) : dayOf (m - k * msPerDay) = dayOf m - k := by
  have h := dayOf_add_days m (-k)
  rw [Int.neg_mul] at h
  exact h

theorem timeClip_eq_some (t u : Int) (h : timeClip t = some u) : u = t := by
  unfold timeClip at h
  split_ifs at h
  exact (Option.some.inj h).symm

theorem timeClip_of_mem (t : Int) (h0 : -maxTime ≤ t) (h1 : t ≤ maxTime) :
    timeClip t = some t := by
  unfold timeClip
  rw [if_pos ⟨h0, h1⟩]

/-- Two formatted moments that are both calendar dates, the second moment resulting from
the first by a shift of `k` days, lie `k` day numbers apart. -/
theorem daysFromCivil_shift (m : Option Int) (k : Int) (a b : CivilDate)
    (ha : formatYMD m = .date a)
    (hb : formatYMD (m.bind (fun t => timeClip (t + k * msPerDay))) = .date b) :
    daysFromCivil b = daysFromCivil a + k := by
  cases m with
  | none => simp [formatYMD] at ha
  | some t =>
    simp only [Option.bind] at hb
    cases hc : timeClip (t + k * msPerDay) with
    | none =>
      rw [hc] at hb
      simp [formatYMD] at hb
    | some u =>
      rw [hc] at hb
      have hu := timeClip_eq_some _ _ hc
      subst hu
      simp only [formatYMD, DateText.date.injEq] at ha hb
      rw [← ha, ← hb, daysFromCivil_civilFromDays, daysFromCivil_civilFromDays, dayOf_add_days]

theorem addDays_eq_shift (m : Option Int) (n : ℚ) :
    addDays m n = m.bind (fun t => timeClip (t + absRound n * msPerDay)) := rfl

theorem subtractDays_eq_shift (m : Option Int) (n : ℚ) :
    subtractDays m n = m.bind (fun t => timeClip (t + -absRound n * msPerDay)) := by
  unfold subtractDays
  congr 1
  funext t
  rw [Int.neg_mul, Int.sub_eq_add_neg]

theorem absRound_two : absRound 2 = 2 := by decide!

theorem absRound_three : absRound 3 = 3 := by decide!

theorem absRound_five : absRound 5 = 5 := by decide!

theorem absRound_fourteen : absRound 14 = 14 := by decide!

/-! ## GET /api/predictions: guard and date derivation -/

theorem predictionsResponse_of_short (cycles : List CycleRecord) (h : cycles.length < 3) :
    predictionsResponse cycles
      = ⟨200, .insufficient "insufficient_data"
          "Se necesitan al menos 3 ciclos para predicciones"⟩ := by
  unfold predictionsResponse
  rw [if_pos h]

theorem predictionsResponse_of_enough (cycles : List CycleRecord) (h : 3 ≤ cycles.length) :
    predictionsResponse cycles
      = ⟨200, .predicted "success"
          { nextPeriod := formatYMD (nextPeriod cycles)
            ovulationDate := formatYMD (subtractDays (nextPeriod cycles) 14)
            fertileWindow :=
              ⟨formatYMD (subtractDays (subtractDays (nextPeriod cycles) 14) 3),
               formatYMD (addDays (subtractDays (nextPeriod cycles) 14) 2)⟩
            PMSStart := formatYMD (subtractDays (nextPeriod cycles) 5) }
          ⟨avgDuration cycles, avgCycleLength cycles⟩⟩ := by
  unfold predictionsResponse
  rw [if_neg (by omega)]

theorem length_sortDescending (docs : List CycleRecord) :
    (sortDescending docs).length = docs.length :=
  List.length_insertionSort _ docs

theorem length_sortAscending (docs : List CycleRecord) :
    (sortAscending docs).length = docs.length :=
  List.length_insertionSort _ docs

/-- C4. Fewer than three fetched records give the ordinary (status 200) response with
status text `insufficient_data` and the fixed message, carrying no predictions and no
averages; three or more give the response with status text `success`. The same holds
for the endpoint over a working store holding the records. -/
theorem predictions_insufficient_or_success (cycles : List CycleRecord) :
    (cycles.length < 3 →
      predictionsResponse cycles
        = ⟨200, .insufficient "insufficient_data"
            "Se necesitan al menos 3 ciclos para predicciones"⟩ ∧
      getPredictions ⟨cycles, none⟩
        = ⟨200, .insufficient "insufficient_data"
            "Se necesitan al menos 3 ciclos para predicciones"⟩) ∧
    (3 ≤ cycles.length →
      (∃ p a, predictionsResponse cycles = ⟨200, .predicted "success" p a⟩) ∧
      (∃ p a, getPredictions ⟨cycles, none⟩ = ⟨200, .predicted "success" p a⟩)) := by
  constructor
  · intro h
    refine ⟨predictionsResponse_of_short cycles h, ?_⟩
    simp only [getPredictions, Store.find]
    apply predictionsResponse_of_short
    rw [List.length_take, length_sortDescending]
    omega
  · intro h
    refine ⟨⟨_, _, predictionsResponse_of_enough cycles h⟩, ?_⟩
    simp only [getPredictions, Store.find]
    refine ⟨_, _, predictionsResponse_of_enough _ ?_⟩
    rw [List.length_take, length_sortDescending]
    omega

theorem mem_of_timeClip_eq_some (t u : Int) (h : timeClip t = some u) :
    -maxTime ≤ u ∧ u ≤ maxTime := by
  unfold timeClip at h
  split_ifs at h with hr
  cases h
  exact hr

theorem mem_of_nextPeriod_eq_some (cycles : List CycleRecord) (t : Int)
    (h : nextPeriod cycles = some t) : -maxTime ≤ t ∧ t ≤ maxTime := by
  unfold nextPeriod addDays at h
  cases hm : moment ((cycles.head?.map (fun c => c.startDate)).getD 0) with
  | none =>
    rw [hm] at h
    cases h
  | some u =>
    rw [hm] at h
    exact mem_of_timeClip_eq_some _ _ h

/-- C3, as the claim states it, fails: for three records ten days apart whose oldest
start is the least time value of a `Date`, `nextPeriod` and `PMSStart` are calendar dates
but `ovulationDate` and both ends of the fertile window are `Invalid date`, so
`ovulationDate` is not `nextPeriod` minus 14 days. -/
theorem earliest_predictions_invalid :
    predictionsResponse earliestRecords
      = ⟨200, .predicted "success"
          { nextPeriod := .date ⟨-271821, 4, 30⟩
            ovulationDate := .invalidDate
            fertileWindow := ⟨.invalidDate, .invalidDate⟩
            PMSStart := .date ⟨-271821, 4, 25⟩ }
          ⟨5, -10⟩⟩ ∧
    ¬ (∃ p a np ov, predictionsResponse earliestRecords = ⟨200, .predicted "success" p a⟩ ∧
        p.nextPeriod = .date np ∧ p.ovulationDate = .date ov ∧
        daysFromCivil ov = daysFromCivil np - 14) := by
  have hE : predictionsResponse earliestRecords
      = ⟨200, .predicted "success"
          { nextPeriod := .date ⟨-271821, 4, 30⟩
            ovulationDate := .invalidDate
            fertileWindow := ⟨.invalidDate, .invalidDate⟩
            PMSStart := .date ⟨-271821, 4, 25⟩ }
          ⟨5, -10⟩⟩ := by decide!
  refine ⟨hE, ?_⟩
  rintro ⟨p, a, np, ov, hp, -, hov, -⟩
  rw [hE] at hp
  injection hp with _ hb
  injection hb with _ hpred _
  rw [← hpred] at hov
  cases hov

/-- C3, amended. For at least three fetched records, whenever the two dates of a relation
are both returned as calendar dates they satisfy, as day numbers,
`ovulationDate = nextPeriod - 14`, `fertileWindow.start = ovulationDate - 3`,
`fertileWindow.end = ovulationDate + 2` and `PMSStart = nextPeriod - 5`, whatever the
averages are; and all five are calendar dates when `nextPeriod` is a valid moment and
the instant 17 days before it is still in the range of `Date`. -/
theorem predictions_date_relations (cycles : List CycleRecord) (h : 3 ≤ cycles.length) :
    ∃ p a, predictionsResponse cycles = ⟨200, .predicted "success" p a⟩ ∧
      (∀ np ov, p.nextPeriod = .date np → p.ovulationDate = .date ov →
        daysFromCivil ov = daysFromCivil np - 14) ∧
      (∀ ov fs, p.ovulationDate = .date ov → p.fertileWindow.start = .date fs →
        daysFromCivil fs = daysFromCivil ov - 3) ∧
      (∀ ov fe, p.ovulationDate = .date ov → p.fertileWindow.end_ = .date fe →
        daysFromCivil fe = daysFromCivil ov + 2) ∧
      (∀ np pms, p.nextPeriod = .date np → p.PMSStart = .date pms →
        daysFromCivil pms = daysFromCivil np - 5) ∧
      (∀ t, nextPeriod cycles = some t → -maxTime ≤ t - 17 * msPerDay →
        ∃ np ov fs fe pms,
          p = ⟨.date np, .date ov, ⟨.date fs, .date fe⟩, .date pms⟩) := by
  refine ⟨_, _, predictionsResponse_of_enough cycles h, ?_, ?_, ?_, ?_, ?_⟩
  · intro np ov hnp hov
    change formatYMD (nextPeriod cycles) = .date np at hnp
    change formatYMD (subtractDays (nextPeriod cycles) 14) = .date ov at hov
    rw [subtractDays_eq_shift, absRound_fourteen] at hov
    exact daysFromCivil_shift _ (-14) np ov hnp hov
  · intro ov fs hov hfs
    change formatYMD (subtractDays (nextPeriod cycles) 14) = .date ov at hov
    change formatYMD (subtractDays (subtractDays (nextPeriod cycles) 14) 3) = .date fs at hfs
    rw [subtractDays_eq_shift _ 3, absRound_three] at hfs
    exact daysFromCivil_shift _ (-3) ov fs hov hfs
  · intro ov fe hov hfe
    change formatYMD (subtractDays (nextPeriod cycles) 14) = .date ov at hov
    change formatYMD (addDays (subtractDays (nextPeriod cycles) 14) 2) = .date fe at hfe
    rw [addDays_eq_shift _ 2, absRound_two] at hfe
    exact daysFromCivil_shift _ 2 ov fe hov hfe
  · intro np pms hnp hpms
    change formatYMD (nextPeriod cycles) = .date np at hnp
    change formatYMD (subtractDays (nextPeriod cycles) 5) = .date pms at hpms
    rw [subtractDays_eq_shift, absRound_five] at hpms
    exact daysFromCivil_shift _ (-5) np pms hnp hpms
  · intro t ht hlow
    obtain ⟨h0, h1⟩ := mem_of_nextPeriod_eq_some cycles t ht
    have e14 : subtractDays (some t) 14 = some (t - 14 * msPerDay) := by
      simp only [subtractDays, Option.bind, absRound_fourteen]
      exact timeClip_of_mem _ (by unfold msPerDay at *; omega) (by unfold msPerDay at *; omega)
    have e17 : subtractDays (some (t - 14 * msPerDay)) 3
        = some (t - 14 * msPerDay - 3 * msPerDay) := by
      simp only [subtractDays, Option.bind, absRound_three]
      exact timeClip_of_mem _ (by unfold msPerDay at *; omega) (by unfold msPerDay at *; omega)
    have e12 : addDays (some (t - 14 * msPerDay)) 2
        = some (t - 14 * msPerDay + 2 * msPerDay) := by
      simp only [addDays, Option.bind, absRound_two]
      exact timeClip_of_mem _ (by unfold msPerDay at *; omega) (by unfold msPerDay at *; omega)
    have e5 : subtractDays (some t) 5 = some (t - 5 * msPerDay) := by
      simp only [subtractDays, Option.bind, absRound_five]
      exact timeClip_of_mem _ (by unfold msPerDay at *; omega) (by unfold msPerDay at *; omega)
    rw [ht, e14, e17, e12, e5]
    exact ⟨_, _, _, _, _, rfl⟩

theorem predictions_date_relations_witness :
    ∃ p a, predictionsResponse scenario = ⟨200, .predicted "success" p a⟩ ∧
      (∀ np ov, p.nextPeriod = .date np → p.ovulationDate = .date ov →
        daysFromCivil ov = daysFromCivil np - 14) ∧
      (∀ ov fs, p.ovulationDate = .date ov → p.fertileWindow.start = .date fs →
        daysFromCivil fs = daysFromCivil ov - 3) ∧
      (∀ ov fe, p.ovulationDate = .date ov → p.fertileWindow.end_ = .date fe →
        daysFromCivil fe = daysFromCivil ov + 2) ∧
      (∀ np pms, p.nextPeriod = .date np → p.PMSStart = .date pms →
        daysFromCivil pms = daysFromCivil np - 5) ∧
      (∀ t, nextPeriod scenario = some t → -maxTime ≤ t - 17 * msPerDay →
        ∃ np ov fs fe pms,
          p = ⟨.date np, .date ov, ⟨.date fs, .date fe⟩, .date pms⟩) :=
  predictions_date_relations scenario (by decide)

/-! ## The specification's scenario, evaluated on the handlers -/

/-- Every cycle length of the predictions handler is the negation of the one the
specification describes. -/
theorem predictionCycleLengths_eq_neg_spec (cycles : List CycleRecord) :
    predictionCycleLengths cycles
      = (specPredictionCycleLengths cycles).map (fun d => -d) := by
  induction cycles with
  | nil => rfl
  | cons a rest ih =>
    cases rest with
    | nil => rfl
    | cons b rest =>
      simp only [predictionCycleLengths, specPredictionCycleLengths, List.map_cons] at ih ⊢
      rw [ih]
      congr 1
      unfold diffDays
      rw [← Int.neg_tdiv, Int.neg_sub]

/-- C1. On the scenario (start dates 2024-02-26, 2024-01-29, 2024-01-01, newest first) the
handler's cycle lengths are `-28` and `-28`, each the less recent start minus the more
recent one, where the specification's are `28` and `28`; `avgCycleLength` is `-28`, so it
is not positive. -/
theorem scenario_cycleLengths_negative :
    predictionCycleLengths scenario = [-28, -28] ∧
    specPredictionCycleLengths scenario = [28, 28] ∧
    avgCycleLength scenario = -28 ∧ ¬ (0 < avgCycleLength scenario) := by
  decide!

/-- C2. On the scenario the predictions handler answers status text `success` with
`avgDuration = 14/3` but `avgCycleLength = -28`, hence `nextPeriod = 2024-01-29`,
`ovulationDate = 2024-01-15`, fertile window 2024-01-12 to 2024-01-17 and
`PMSStart = 2024-01-24`, not the answer with `avgCycleLength = 28` and
`nextPeriod = 2024-03-25`; the endpoint over a store holding the three records in
another order answers the same. -/
theorem scenario_predictions :
    predictionsResponse scenario
      = ⟨200, .predicted "success"
          { nextPeriod := .date ⟨2024, 1, 29⟩
            ovulationDate := .date ⟨2024, 1, 15⟩
            fertileWindow := ⟨.date ⟨2024, 1, 12⟩, .date ⟨2024, 1, 17⟩⟩
            PMSStart := .date ⟨2024, 1, 24⟩ }
          ⟨14 / 3, -28⟩⟩ ∧
    predictionsResponse scenario
      ≠ ⟨200, .predicted "success"
          { nextPeriod := .date ⟨2024, 3, 25⟩
            ovulationDate := .date ⟨2024, 3, 11⟩
            fertileWindow := ⟨.date ⟨2024, 3, 8⟩, .date ⟨2024, 3, 13⟩⟩
            PMSStart := .date ⟨2024, 3, 20⟩ }
          ⟨14 / 3, 28⟩⟩ ∧
    getPredictions ⟨scenario.reverse, none⟩ = predictionsResponse scenario ∧
    (formatYMD (nextPeriod scenario)).text = "2024-01-29" := by
  decide!

/-! ## GET /api/stats: shape of the answer -/

theorem length_statsCycleLengths (dates : List Int) :
    (statsCycleLengths dates).length = dates.length - 1 := by
  induction dates with
  | nil => rfl
  | cons a rest ih =>
    cases rest with
    | nil => rfl
    | cons b rest =>
      simp only [statsCycleLengths, List.length_cons] at ih ⊢
      omega

theorem length_predictionCycleLengths (cycles : List CycleRecord) :
    (predictionCycleLengths cycles).length = cycles.length - 1 := by
  induction cycles with
  | nil => rfl
  | cons a rest ih =>
    cases rest with
    | nil => rfl
    | cons b rest =>
      simp only [predictionCycleLengths, List.length_cons] at ih ⊢
      omega

theorem avg_of_ne_nil (arr : List ℚ) (h : arr.length ≠ 0) :
    avg arr = some (arr.sum / arr.length) := by
  unfold avg
  rw [if_neg h]

theorem statsResponse_of_ne_nil (cycles : List CycleRecord) (h : cycles.length ≠ 0) :
    statsResponse cycles
      = ⟨200, .stats (avg (cycles.map (fun c => c.duration)))
          (avg ((statsCycleLengths (cycles.map (fun c => c.startDate))).map
            (fun (d : Int) => (d : ℚ))))⟩ := by
  unfold statsResponse
  rw [if_neg h]

/-- C6. Over a working store the statistics handler always answers (status 200) with the
two-field statistics body: both fields `null` for no record; for exactly one record
`averageCycleLength` is `null` and `averageDuration` is that record's duration; for two
or more records `averageCycleLength` is not `null`. -/
theorem stats_shape (docs : List CycleRecord) :
    ∃ averageDuration averageCycleLength,
      getStats ⟨docs, none⟩ = ⟨200, .stats averageDuration averageCycleLength⟩ ∧
      (docs = [] → averageDuration = none ∧ averageCycleLength = none) ∧
      (∀ r, docs = [r] → averageDuration = some r.duration ∧ averageCycleLength = none) ∧
      (2 ≤ docs.length → averageDuration ≠ none ∧ averageCycleLength ≠ none) := by
  simp only [getStats, Store.find]
  by_cases h : docs.length = 0
  · have hnil : docs = [] := List.length_eq_zero.mp h
    subst hnil
    refine ⟨none, none, rfl, fun _ => ⟨rfl, rfl⟩, ?_, ?_⟩
    · intro r hr
      cases hr
    · intro h2
      simp at h2
  · have hs : (sortAscending docs).length ≠ 0 := by
      rw [length_sortAscending]
      exact h
    refine ⟨_, _, statsResponse_of_ne_nil _ hs, ?_, ?_, ?_⟩
    · intro hnil
      subst hnil
      exact absurd rfl h
    · intro r hr
      subst hr
      constructor
      · simp [sortAscending, avg]
      · rfl
    · intro h2
      constructor
      · rw [avg_of_ne_nil _ (by simpa using hs)]
        exact Option.some_ne_none _
      · rw [avg_of_ne_nil]
        · exact Option.some_ne_none _
        · rw [List.length_map, length_statsCycleLengths, List.length_map,
            length_sortAscending]
          omega

/-! ## POST /api/cycles and failure answers -/

/-- C7. A write whose body lacks `startDate` or lacks `duration` is answered with HTTP 400
and the error body `Datos incompletos`, the store is returned unchanged, and a
subsequent list request answers as it did before. -/
theorem post_missing_field
    (validate : Option JsValue → Option JsValue → Option JsValue → Except String CycleRecord)
    (store : Store) (body : RequestBody)
    (h : body.startDate = none ∨ body.duration = none) :
    postCycles validate store body
      = (⟨400, .failure "Datos incompletos"
          "Fecha de inicio y duración son obligatorios"⟩, store) ∧
    getCycles (postCycles validate store body).2 = getCycles store := by
  have hf : (falsy body.startDate || falsy body.duration) = true := by
    rcases h with h | h <;> simp [h, falsy]
  have hp : postCycles validate store body
      = (⟨400, .failure "Datos incompletos"
          "Fecha de inicio y duración son obligatorios"⟩, store) := by
    unfold postCycles
    rw [if_pos hf]
  exact ⟨hp, by rw [hp]⟩

theorem post_missing_field_witness :
    postCycles acceptAll ⟨scenario, none⟩ ⟨some (.string "2024-03-25"), none, none⟩
      = (⟨400, .failure "Datos incompletos"
          "Fecha de inicio y duración son obligatorios"⟩, ⟨scenario, none⟩) ∧
    getCycles (postCycles acceptAll ⟨scenario, none⟩
        ⟨some (.string "2024-03-25"), none, none⟩).2
      = getCycles ⟨scenario, none⟩ :=
  post_missing_field acceptAll ⟨scenario, none⟩ ⟨some (.string "2024-03-25"), none, none⟩
    (Or.inr rfl)

/-- When the store rejects its queries with `message`, the three GET handlers answer
HTTP 500 with an error body whose details is `message`. -/
theorem get_failure_responses (store : Store) (message : String)
    (hfault : store.fault = some message) :
    getPredictions store = ⟨500, .failure "Error en predicciones" message⟩ ∧
    getCycles store = ⟨500, .failure "Error al obtener ciclos" message⟩ ∧
    getStats store = ⟨500, .failure "Error al calcular estadísticas" message⟩ := by
  refine ⟨?_, ?_, ?_⟩
  · simp only [getPredictions, Store.find, hfault]
  · simp only [getCycles, Store.find, hfault]
  · simp only [getStats, Store.find, hfault]

/-- C8. Against a store that rejects with `db down`, the three GET handlers answer
HTTP 500 with details `db down`, but a complete write is answered with HTTP 400 (error
`Error al guardar ciclo`, details `db down`), not with 500. -/
theorem post_store_fault_not_500 :
    getPredictions ⟨scenario, some "db down"⟩
      = ⟨500, .failure "Error en predicciones" "db down"⟩ ∧
    getCycles ⟨scenario, some "db down"⟩
      = ⟨500, .failure "Error al obtener ciclos" "db down"⟩ ∧
    getStats ⟨scenario, some "db down"⟩
      = ⟨500, .failure "Error al calcular estadísticas" "db down"⟩ ∧
    (postCycles acceptAll ⟨scenario, some "db down"⟩
        ⟨some (.string "2024-03-25"), some (.number 5), none⟩).1
      = ⟨400, .failure "Error al guardar ciclo" "db down"⟩ ∧
    (postCycles acceptAll ⟨scenario, some "db down"⟩
        ⟨some (.string "2024-03-25"), some (.number 5), none⟩).1.status ≠ 500 := by
  decide!

/-! ## Telescoping of the day differences -/

theorem diffDays_of_wholeDay (a b : Int) (ha : a % msPerDay = 0) (hb : b % msPerDay = 0) :
    diffDays a b = dayOf a - dayOf b := by
  have hdvd : msPerDay ∣ a - b :=
    Int.dvd_sub (Int.dvd_of_emod_eq_zero ha) (Int.dvd_of_emod_eq_zero hb)
  unfold diffDays dayOf
  rw [Int.tdiv_eq_ediv_of_dvd hdvd]
  unfold msPerDay at *
  omega

theorem dayOf_le_dayOf (a b : Int) (h : a ≤ b) : dayOf a ≤ dayOf b := by
  unfold dayOf msPerDay
  omega

theorem sum_predictionCycleLengths (cycles : List CycleRecord)
    (hw : ∀ c ∈ cycles, c.startDate % msPerDay = 0) (first last : CycleRecord)
    (hf : cycles.head? = some first) (hl : cycles.getLast? = some last) :
    (predictionCycleLengths cycles).sum = dayOf last.startDate - dayOf first.startDate := by
  induction cycles generalizing first with
  | nil => simp at hf
  | cons a rest ih =>
    simp only [List.head?_cons, Option.some.injEq] at hf
    subst hf
    cases rest with
    | nil =>
      simp only [List.getLast?_singleton, Option.some.injEq] at hl
      subst hl
      simp [predictionCycleLengths]
    | cons b rest =>
      rw [List.getLast?_cons_cons] at hl
      have hb := ih (fun c hc => hw c (List.mem_cons_of_mem _ hc)) b rfl hl
      have ha0 := hw a (List.mem_cons_self _ _)
      have hb0 := hw b (List.mem_cons_of_mem _ (List.mem_cons_self _ _))
      simp only [predictionCycleLengths, List.sum_cons, hb, diffDays_of_wholeDay _ _ hb0 ha0]
      omega

theorem sum_statsCycleLengths (dates : List Int)
    (hw : ∀ d ∈ dates, d % msPerDay = 0) (hs : dates.Sorted (fun a b => a ≤ b))
    (first last : Int) (hf : dates.head? = some first) (hl : dates.getLast? = some last) :
    (statsCycleLengths dates).sum = dayOf last - dayOf first := by
  induction dates generalizing first with
  | nil => simp at hf
  | cons a rest ih =>
    simp only [List.head?_cons, Option.some.injEq] at hf
    subst hf
    cases rest with
    | nil =>
      simp only [List.getLast?_singleton, Option.some.injEq] at hl
      subst hl
      simp [statsCycleLengths]
    | cons b rest =>
      rw [List.getLast?_cons_cons] at hl
      have hsab : a ≤ b := List.rel_of_sorted_cons hs b (List.mem_cons_self _ _)
      have hb := ih (fun c hc => hw c (List.mem_cons_of_mem _ hc)) hs.of_cons b rfl hl
      have ha0 := hw a (List.mem_cons_self _ _)
      have hb0 := hw b (List.mem_cons_of_mem _ (List.mem_cons_self _ _))
      have hle := dayOf_le_dayOf a b hsab
      simp only [statsCycleLengths, List.sum_cons, hb, diffDays_of_wholeDay _ _ hb0 ha0,
        abs_of_nonneg (sub_nonneg.mpr hle)]
      omega

theorem dayOf_sub_of_wholeDay (a b : Int) (ha : a % msPerDay = 0) (hb : b % msPerDay = 0) :
    dayOf a - dayOf b = (a - b) / msPerDay := by
  unfold dayOf msPerDay at *
  omega

theorem avgCycleLength_telescope (cycles : List CycleRecord) (h : 3 ≤ cycles.length)
    (hw : ∀ c ∈ cycles, c.startDate % msPerDay = 0) (first last : CycleRecord)
    (hf : cycles.head? = some first) (hl : cycles.getLast? = some last) :
    avgCycleLength cycles
      = (((last.startDate - first.startDate) / msPerDay : Int) : ℚ)
          / ((cycles.length : ℚ) - 1) := by
  have hfm : first ∈ cycles := List.mem_of_mem_head? hf
  have hlm : last ∈ cycles := List.mem_of_mem_getLast? hl
  unfold avgCycleLength
  rw [sum_predictionCycleLengths cycles hw first last hf hl, length_predictionCycleLengths,
    dayOf_sub_of_wholeDay _ _ (hw last hlm) (hw first hfm),
    Nat.cast_sub (by omega : 1 ≤ cycles.length), Nat.cast_one]

/-- C10. For at least three fetched records with whole-day start dates, in any order,
`avgCycleLength` is the day difference between the last and the first supplied start
date divided by `n - 1`; the response carries that value, and any other such list of the
same length with the same first and last start dates gives the same `avgCycleLength`. -/
theorem predictions_telescope (cycles : List CycleRecord) (h : 3 ≤ cycles.length)
    (hw : ∀ c ∈ cycles, c.startDate % msPerDay = 0) (first last : CycleRecord)
    (hf : cycles.head? = some first) (hl : cycles.getLast? = some last) :
    avgCycleLength cycles
      = (((last.startDate - first.startDate) / msPerDay : Int) : ℚ)
          / ((cycles.length : ℚ) - 1) ∧
    (∃ p d, predictionsResponse cycles
      = ⟨200, .predicted "success" p
          ⟨d, (((last.startDate - first.startDate) / msPerDay : Int) : ℚ)
                / ((cycles.length : ℚ) - 1)⟩⟩) ∧
    (∀ (others : List CycleRecord) (first' last' : CycleRecord),
      others.length = cycles.length → (∀ c ∈ others, c.startDate % msPerDay = 0) →
      others.head? = some first' → others.getLast? = some last' →
      first'.startDate = first.startDate → last'.startDate = last.startDate →
      avgCycleLength others = avgCycleLength cycles) := by
  have key := avgCycleLength_telescope cycles h hw first last hf hl
  refine ⟨key, ?_, ?_⟩
  · rw [← key]
    exact ⟨_, _, predictionsResponse_of_enough cycles h⟩
  · intro others first' last' hlen hw' hf' hl' hfe hle
    rw [key, avgCycleLength_telescope others (by omega) hw' first' last' hf' hl', hlen, hfe,
      hle]

theorem predictions_telescope_witness :
    avgCycleLength scenario
      = (((scenarioOldest.startDate - scenarioNewest.startDate) / msPerDay : Int) : ℚ)
          / ((scenario.length : ℚ) - 1) :=
  (predictions_telescope scenario (by decide) (by decide) scenarioNewest scenarioOldest
    rfl rfl).1

/-! ## Sorting by start date -/

theorem sorted_map_sortAscending (docs : List CycleRecord) :
    ((sortAscending docs).map (fun c => c.startDate)).Sorted (fun a b => a ≤ b) := by
  haveI : IsTotal CycleRecord (fun a b => a.startDate ≤ b.startDate) :=
    ⟨fun a b => le_total a.startDate b.startDate⟩
  haveI : IsTrans CycleRecord (fun a b => a.startDate ≤ b.startDate) :=
    ⟨fun _ _ _ hab hbc => le_trans hab hbc⟩
  have hs := List.sorted_insertionSort (fun a b : CycleRecord => a.startDate ≤ b.startDate) docs
  exact List.pairwise_map.mpr hs

theorem sorted_map_sortDescending (docs : List CycleRecord) :
    ((sortDescending docs).map (fun c => c.startDate)).Sorted (fun a b => b ≤ a) := by
  haveI : IsTotal CycleRecord (fun a b => b.startDate ≤ a.startDate) :=
    ⟨fun a b => le_total b.startDate a.startDate⟩
  haveI : IsTrans CycleRecord (fun a b => b.startDate ≤ a.startDate) :=
    ⟨fun _ _ _ hab hbc => le_trans hbc hab⟩
  have hs := List.sorted_insertionSort (fun a b : CycleRecord => b.startDate ≤ a.startDate) docs
  exact List.pairwise_map.mpr hs

theorem perm_sortAscending (docs : List CycleRecord) : (sortAscending docs).Perm docs :=
  List.perm_insertionSort _ docs

theorem perm_sortDescending (docs : List CycleRecord) : (sortDescending docs).Perm docs :=
  List.perm_insertionSort _ docs

theorem sorted_dates (dates : List Int) :
    (dates.insertionSort (fun a b => a ≤ b)).Sorted (fun a b => a ≤ b) :=
  List.sorted_insertionSort (fun a b : Int => a ≤ b) dates

/-- The start dates of the ascending query result are the sorted start dates. -/
theorem map_startDate_sortAscending (docs : List CycleRecord) :
    (sortAscending docs).map (fun c => c.startDate)
      = (docs.map (fun c => c.startDate)).insertionSort (fun a b => a ≤ b) := by
  refine List.eq_of_perm_of_sorted ?_ (sorted_map_sortAscending docs) (sorted_dates _)
  exact ((perm_sortAscending docs).map _).trans (List.perm_insertionSort _ _).symm

/-- The start dates of the descending query result are the sorted start dates reversed. -/
theorem map_startDate_sortDescending (docs : List CycleRecord) :
    (sortDescending docs).map (fun c => c.startDate)
      = ((docs.map (fun c => c.startDate)).insertionSort (fun a b => a ≤ b)).reverse := by
  haveI : IsAntisymm Int (fun a b => b ≤ a) := ⟨fun _ _ hab hba => le_antisymm hba hab⟩
  refine List.eq_of_perm_of_sorted ?_ (sorted_map_sortDescending docs)
    (List.pairwise_reverse.mpr (sorted_dates _))
  exact ((perm_sortDescending docs).map _).trans
    ((List.perm_insertionSort _ _).symm.trans (List.reverse_perm _).symm)

theorem statsCycleLengths_eq_zipWith (dates : List Int) :
    statsCycleLengths dates
      = List.zipWith (fun later earlier => |diffDays later earlier|) dates.tail dates := by
  induction dates with
  | nil => rfl
  | cons a rest ih =>
    cases rest with
    | nil => rfl
    | cons b rest =>
      simp only [statsCycleLengths, List.tail_cons, List.zipWith_cons_cons] at ih ⊢
      rw [ih]

theorem specCycleLengths_perm (docs docs' : List CycleRecord) (h : docs'.Perm docs) :
    specCycleLengths docs' = specCycleLengths docs := by
  have hd : (docs'.map (fun c => c.startDate)).insertionSort (fun a b => a ≤ b)
      = (docs.map (fun c => c.startDate)).insertionSort (fun a b => a ≤ b) := by
    refine List.eq_of_perm_of_sorted ?_ (sorted_dates _) (sorted_dates _)
    exact (List.perm_insertionSort _ _).trans
      ((h.map _).trans (List.perm_insertionSort _ _).symm)
  unfold specCycleLengths
  rw [hd]

theorem specAverageDuration_perm (docs docs' : List CycleRecord) (h : docs'.Perm docs) :
    specAverageDuration docs' = specAverageDuration docs := by
  unfold specAverageDuration
  rw [(h.map _).sum_eq, h.length_eq]

theorem sum_map_intCast (l : List Int) :
    (l.map (fun (d : Int) => (d : ℚ))).sum = ((l.sum : Int) : ℚ) := by
  induction l with
  | nil => simp
  | cons a rest ih => rw [List.map_cons, List.sum_cons, List.sum_cons, ih, Int.cast_add]

/-- The statistics of any ascending arrangement of at least two records, whatever the
order it gives to equal start dates, in the terms of the specification. -/
theorem statsResponse_eq_spec (docs arranged : List CycleRecord) (h : 2 ≤ docs.length)
    (hp : arranged.Perm docs)
    (hs : (arranged.map (fun c => c.startDate)).Sorted (fun a b => a ≤ b)) :
    statsResponse arranged
      = ⟨200, .stats (some (specAverageDuration docs))
          (some (specAverageCycleLength docs))⟩ := by
  have hdates : arranged.map (fun c => c.startDate)
      = (docs.map (fun c => c.startDate)).insertionSort (fun a b => a ≤ b) :=
    List.eq_of_perm_of_sorted ((hp.map _).trans (List.perm_insertionSort _ _).symm) hs
      (sorted_dates _)
  have hlengths : statsCycleLengths (arranged.map (fun c => c.startDate))
      = specCycleLengths docs := by
    rw [statsCycleLengths_eq_zipWith, hdates]
    rfl
  have hne : arranged.length ≠ 0 := by
    rw [hp.length_eq]
    omega
  have hlen : (specCycleLengths docs).length ≠ 0 := by
    rw [← hlengths, length_statsCycleLengths, List.length_map, hp.length_eq]
    omega
  rw [statsResponse_of_ne_nil _ hne, hlengths, avg_of_ne_nil _ (by simpa using hne),
    avg_of_ne_nil _ (by simpa using hlen)]
  have e1 : (arranged.map (fun c => c.duration)).sum
        / ((arranged.map (fun c => c.duration)).length : ℚ)
      = specAverageDuration docs := by
    unfold specAverageDuration
    rw [(hp.map _).sum_eq, List.length_map, hp.length_eq]
  have e2 : ((specCycleLengths docs).map (fun (d : Int) => (d : ℚ))).sum
        / (((specCycleLengths docs).map (fun (d : Int) => (d : ℚ))).length : ℚ)
      = specAverageCycleLength docs := by
    unfold specAverageCycleLength
    rw [List.length_map, sum_map_intCast]
  rw [e1, e2]

/-- The answer of the statistics endpoint over a working store holding at least two
records, in the terms of the specification. -/
theorem getStats_eq_spec (docs : List CycleRecord) (h : 2 ≤ docs.length) :
    getStats ⟨docs, none⟩
      = ⟨200, .stats (some (specAverageDuration docs))
          (some (specAverageCycleLength docs))⟩ := by
  simp only [getStats, Store.find]
  exact statsResponse_eq_spec docs _ h (perm_sortAscending docs) (sorted_map_sortAscending docs)

/-- C5. Over a working store holding at least two records, the statistics endpoint
answers with `averageDuration` the mean of all durations and `averageCycleLength` the
mean of the absolute day differences of consecutive start dates sorted ascending; every
permutation of the stored records gives the same answer, and so does the handler on any
ascending arrangement of them, whatever order it gives to equal start dates. -/
theorem stats_mean_and_sort_invariant (docs : List CycleRecord) (h : 2 ≤ docs.length) :
    getStats ⟨docs, none⟩
      = ⟨200, .stats (some (specAverageDuration docs))
          (some (specAverageCycleLength docs))⟩ ∧
    (∀ docs' : List CycleRecord, docs'.Perm docs →
      getStats ⟨docs', none⟩ = getStats ⟨docs, none⟩) ∧
    (∀ arranged : List CycleRecord, arranged.Perm docs →
      (arranged.map (fun c => c.startDate)).Sorted (fun a b => a ≤ b) →
      statsResponse arranged = getStats ⟨docs, none⟩) := by
  refine ⟨getStats_eq_spec docs h, ?_, ?_⟩
  · intro docs' hp
    rw [getStats_eq_spec docs h, getStats_eq_spec docs' (by rw [hp.length_eq]; exact h),
      specAverageDuration_perm docs docs' hp]
    unfold specAverageCycleLength
    rw [specCycleLengths_perm docs docs' hp]
  · intro arranged hp hs
    rw [getStats_eq_spec docs h, statsResponse_eq_spec docs arranged h hp hs]

theorem stats_mean_and_sort_invariant_witness :
    getStats ⟨scenario, none⟩
      = ⟨200, .stats (some (specAverageDuration scenario))
          (some (specAverageCycleLength scenario))⟩ ∧
    (∀ docs' : List CycleRecord, docs'.Perm scenario →
      getStats ⟨docs', none⟩ = getStats ⟨scenario, none⟩) ∧
    (∀ arranged : List CycleRecord, arranged.Perm scenario →
      (arranged.map (fun c => c.startDate)).Sorted (fun a b => a ≤ b) →
      statsResponse arranged = getStats ⟨scenario, none⟩) :=
  stats_mean_and_sort_invariant scenario (by decide)

/-! ## Statistics against predictions -/

theorem sum_predictionCycleLengths_dates (cycles : List CycleRecord)
    (hw : ∀ c ∈ cycles, c.startDate % msPerDay = 0) (first last : Int)
    (hf : (cycles.map (fun c => c.startDate)).head? = some first)
    (hl : (cycles.map (fun c => c.startDate)).getLast? = some last) :
    (predictionCycleLengths cycles).sum = dayOf last - dayOf first := by
  rw [List.head?_map] at hf
  rw [List.getLast?_map] at hl
  obtain ⟨f, hf1, hf2⟩ := Option.map_eq_some'.mp hf
  obtain ⟨l, hl1, hl2⟩ := Option.map_eq_some'.mp hl
  rw [sum_predictionCycleLengths cycles hw f l hf1 hl1, ← hf2, ← hl2]

theorem exists_head_getLast (dates : List Int) (h : dates.length ≠ 0) :
    ∃ lo hi, dates.head? = some lo ∧ dates.getLast? = some hi := by
  cases dates with
  | nil => exact absurd rfl h
  | cons a rest =>
    refine ⟨a, (a :: rest).getLast (List.cons_ne_nil _ _), rfl, ?_⟩
    exact List.getLast?_eq_getLast _ _

/-- C9. For at least three records with whole-day, pairwise distinct start dates, the
`averageCycleLength` of the statistics handler over the records sorted ascending and the
`avgCycleLength` of the predictions handler over the same records sorted newest-first
have the same absolute value. -/
theorem stats_predictions_same_magnitude (docs : List CycleRecord) (h : 3 ≤ docs.length)
    (hw : ∀ c ∈ docs, c.startDate % msPerDay = 0)
    (_hd : (docs.map (fun c => c.startDate)).Nodup) :
    ∃ d s p a,
      statsResponse (sortAscending docs) = ⟨200, .stats d (some s)⟩ ∧
      predictionsResponse (sortDescending docs) = ⟨200, .predicted "success" p a⟩ ∧
      |s| = |a.cycleLength| := by
  have hasc : (sortAscending docs).length ≠ 0 := by
    rw [length_sortAscending]
    omega
  have hlen : (statsCycleLengths ((sortAscending docs).map (fun c => c.startDate))).length
      = docs.length - 1 := by
    rw [length_statsCycleLengths, List.length_map, length_sortAscending]
  have hdates : ((sortAscending docs).map (fun c => c.startDate)).length ≠ 0 := by
    rw [List.length_map]
    exact hasc
  obtain ⟨lo, hi, hlo, hhi⟩ := exists_head_getLast _ hdates
  have hwa : ∀ d ∈ (sortAscending docs).map (fun c => c.startDate), d % msPerDay = 0 := by
    intro d hd
    obtain ⟨c, hc, rfl⟩ := List.mem_map.mp hd
    exact hw c ((perm_sortAscending docs).mem_iff.mp hc)
  have hwd : ∀ c ∈ sortDescending docs, c.startDate % msPerDay = 0 :=
    fun c hc => hw c ((perm_sortDescending docs).mem_iff.mp hc)
  have hrev : (sortDescending docs).map (fun c => c.startDate)
      = ((sortAscending docs).map (fun c => c.startDate)).reverse := by
    rw [map_startDate_sortDescending, map_startDate_sortAscending]
  have sumStats := sum_statsCycleLengths _ hwa (sorted_map_sortAscending docs) lo hi hlo hhi
  have sumPred := sum_predictionCycleLengths_dates (sortDescending docs) hwd hi lo
    (by rw [hrev, List.head?_reverse]; exact hhi)
    (by rw [hrev, List.getLast?_reverse]; exact hlo)
  have hstats : statsResponse (sortAscending docs)
      = ⟨200, .stats (avg ((sortAscending docs).map (fun c => c.duration)))
          (some ((((statsCycleLengths
              ((sortAscending docs).map (fun c => c.startDate))).sum : Int) : ℚ)
            / ((docs.length - 1 : Nat) : ℚ)))⟩ := by
    rw [statsResponse_of_ne_nil _ hasc, avg_of_ne_nil
      ((statsCycleLengths ((sortAscending docs).map (fun c => c.startDate))).map
        (fun (d : Int) => (d : ℚ))) (by rw [List.length_map, hlen]; omega),
      sum_map_intCast, List.length_map, hlen]
  have hpred := predictionsResponse_of_enough (sortDescending docs)
    (by rw [length_sortDescending]; exact h)
  refine ⟨_, _, _, _, hstats, hpred, ?_⟩
  show |_| = |avgCycleLength (sortDescending docs)|
  unfold avgCycleLength
  rw [sumStats, sumPred, length_predictionCycleLengths, length_sortDescending, ← abs_neg,
    ← neg_div]
  push_cast
  ring_nf

theorem stats_predictions_same_magnitude_witness :
    ∃ d s p a,
      statsResponse (sortAscending scenario) = ⟨200, .stats d (some s)⟩ ∧
      predictionsResponse (sortDescending scenario) = ⟨200, .predicted "success" p a⟩ ∧
      |s| = |a.cycleLength| :=
  stats_predictions_same_magnitude scenario (by decide) (by decide) (by decide)

end MenstrualCycleApi
